import Mathlib

/-!
Verification of the bloom-backend plant-aggregate assembly and upload
pipeline.  The JavaScript sources are embedded shallowly: JSON values
are an inductive type, `JSON.parse` is modelled by an executable
fuel-based parser, HTTP handlers become pure functions from a request,
a failure-injection environment and a system state to a response, a
new state and a trace of external-effect events.
-/

/-- Model of a JavaScript JSON value.  Numbers are represented by an
integer mantissa together with the number of fractional digits
(`num m k` denotes m / 10^k); exponent notation is not modelled since
no value in this code base uses it. -/
inductive Json where
  | null
  | bool (b : Bool)
  | num (mantissa : Int) (scale : Nat)
  | str (s : String)
  | arr (elems : List Json)
  | obj (fields : List (String × Json))
deriving Repr

/-- JavaScript truthiness of a JSON value (`x ? a : b`, `x || d`). -/
def Json.truthy : Json → Bool
  | .null => false
  | .bool b => b
  | .num m _ => m ≠ 0
  | .str s => s ≠ ""
  | .arr _ => true
  | .obj _ => true

def isJsonWs (c : Char) : Bool :=
  c = ' ' || c = '\n' || c = '\t' || c = '\r'

def skipWs : List Char → List Char
  | [] => []
  | c :: cs => if isJsonWs c then skipWs cs else c :: cs

def hexVal (c : Char) : Option Nat :=
  if c.isDigit then some (c.toNat - 48)
  else if 'a' ≤ c ∧ c ≤ 'f' then some (c.toNat - 87)
  else if 'A' ≤ c ∧ c ≤ 'F' then some (c.toNat - 55)
  else none

def parseJsonStringBody : Nat → List Char → Option (List Char × List Char)
  | 0, _ => none
  | _ + 1, [] => none
  | fuel + 1, c :: cs =>
    if c = '"' then some ([], cs)
    else if c = '\\' then
      match cs with
      | [] => none
      | e :: cs' =>
        let esc : Option Char :=
          if e = '"' then some '"'
          else if e = '\\' then some '\\'
          else if e = '/' then some '/'
          else if e = 'b' then some (Char.ofNat 8)
          else if e = 'f' then some (Char.ofNat 12)
          else if e = 'n' then some '\n'
          else if e = 'r' then some '\r'
          else if e = 't' then some '\t'
          else none
        match esc with
        | some ch =>
          match parseJsonStringBody fuel cs' with
          | some (body, rest) => some (ch :: body, rest)
          | none => none
        | none =>
          if e = 'u' then
            match cs' with
            | h1 :: h2 :: h3 :: h4 :: cs'' =>
              match hexVal h1, hexVal h2, hexVal h3, hexVal h4 with
              | some a, some b, some c', some d =>
                match parseJsonStringBody fuel cs'' with
                | some (body, rest) =>
                    some (Char.ofNat (((a * 16 + b) * 16 + c') * 16 + d) :: body, rest)
                | none => none
              | _, _, _, _ => none
            | _ => none
          else none
    else
      match parseJsonStringBody fuel cs with
      | some (body, rest) => some (c :: body, rest)
      | none => none

def parseDigits : List Char → Option (Nat × Nat × List Char)
  | c :: cs =>
    if c.isDigit then
      match parseDigits cs with
      | some (v, n, rest) => some ((c.toNat - 48) * 10 ^ n + v, n + 1, rest)
      | none => some (c.toNat - 48, 1, cs)
    else none
  | [] => none

/-- Parses an unsigned JSON number: integer digits and an optional
fractional part, returned as mantissa and fractional-digit count. -/
def parseJsonNumber (s : List Char) : Option (Int × Nat × List Char) :=
  match parseDigits s with
  | some (ip, _, rest) =>
    (match rest with
     | '.' :: rest' =>
       (match parseDigits rest' with
        | some (fp, fn, rest'') => some ((ip * 10 ^ fn + fp : Nat), fn, rest'')
        | none => none)
     | _ => some ((ip : Nat), 0, rest))
  | none => none

mutual

/-- Model of `JSON.parse` on a character list, with explicit fuel.
Parses one JSON value and returns it with the unconsumed remainder. -/
def parseJsonValue : Nat → List Char → Option (Json × List Char)
  | 0, _ => none
  | fuel + 1, s =>
    match skipWs s with
    | 'n' :: 'u' :: 'l' :: 'l' :: rest => some (.null, rest)
    | 't' :: 'r' :: 'u' :: 'e' :: rest => some (.bool true, rest)
    | 'f' :: 'a' :: 'l' :: 's' :: 'e' :: rest => some (.bool false, rest)
    | '"' :: rest =>
      match parseJsonStringBody (rest.length + 1) rest with
      | some (body, rest') => some (.str (String.mk body), rest')
      | none => none
    | '[' :: rest =>
      (match skipWs rest with
       | ']' :: rest' => some (.arr [], rest')
       | _ =>
         match parseJsonElems fuel rest with
         | some (elems, rest') => some (.arr elems, rest')
         | none => none)
    | '{' :: rest =>
      (match skipWs rest with
       | '}' :: rest' => some (.obj [], rest')
       | _ =>
         match parseJsonMembers fuel rest with
         | some (fields, rest') => some (.obj fields, rest')
         | none => none)
    | '-' :: rest =>
      (match parseJsonNumber rest with
       | some (m, k, rest') => some (.num (-m) k, rest')
       | none => none)
    | s' =>
      (match parseJsonNumber s' with
       | some (m, k, rest') => some (.num m k, rest')
       | none => none)

/-- Parses the elements of a non-empty JSON array, comma separated,
up to and including the closing bracket. -/
def parseJsonElems : Nat → List Char → Option (List Json × List Char)
  | 0, _ => none
  | fuel + 1, s =>
    match parseJsonValue fuel s with
    | some (v, rest) =>
      (match skipWs rest with
       | ',' :: rest' =>
         (match parseJsonElems fuel rest' with
          | some (vs, rest'') => some (v :: vs, rest'')
          | none => none)
       | ']' :: rest' => some ([v], rest')
       | _ => none)
    | none => none

/-- Parses the members of a non-empty JSON object, comma separated,
up to and including the closing brace. -/
def parseJsonMembers : Nat → List Char → Option (List (String × Json) × List Char)
  | 0, _ => none
  | fuel + 1, s =>
    match skipWs s with
    | '"' :: rest =>
      (match parseJsonStringBody (rest.length + 1) rest with
       | some (key, rest') =>
         (match skipWs rest' with
          | ':' :: rest'' =>
            (match parseJsonValue fuel rest'' with
             | some (v, rest3) =>
               (match skipWs rest3 with
                | ',' :: rest4 =>
                  (match parseJsonMembers fuel rest4 with
                   | some (fs, rest5) => some ((String.mk key, v) :: fs, rest5)
                   | none => none)
                | '}' :: rest4 => some ([(String.mk key, v)], rest4)
                | _ => none)
             | none => none)
          | _ => none)
       | none => none)
    | _ => none

end

/-- Model of `JSON.parse(s)`: `none` is a thrown `SyntaxError`.
Trailing non-whitespace characters make the parse fail, as in JS. -/
def parseJson (s : String) : Option Json :=
  match parseJsonValue (s.data.length + 2) s.data with
  | some (v, rest) => if skipWs rest = [] then some v else none
  | none => none

/-- Raw value of one sub-document column of a `GetPlantsWithStagesAndLocations`
row: SQL NULL / absent, a JSON-encoded string, or an already-structured value. -/
inductive RawField where
  | absent
  | encoded (s : String)
  | value (j : Json)
deriving Repr

/-- One raw row returned by the stored procedure, as consumed by the
`GET /api/plants` handler of `src/index.js`.  The scalar columns the
handler copies through verbatim are kept as raw JSON values. -/
structure RawPlantRow where
  plant_obj_id : Json
  user_id : Json
  plant : RawField
  variety : RawField
  stage : RawField
  location : RawField
  photos : RawField
  notes : RawField
  warning : RawField
  date_updated : Json
  date_planted : Json
  is_transplant : Json
  status : Json
  current_temp : Json
deriving Repr

/-- The structured aggregate built for one row by the handler. -/
structure PlantAggregate where
  plant_obj_id : Json
  user_id : Json
  plant : Json
  variety : Json
  stage : Json
  location : Json
  photos : Json
  notes : Json
  warning : Json
  date_updated : Json
  date_planted : Json
  is_transplant : Json
  status : Json
  current_temp : Json
deriving Repr

/-- Embeds `typeof x === 'string' ? JSON.parse(x) : x` (used for the
plant, variety, stage and location columns in src/index.js:49-52).
`Except.error` is a thrown `SyntaxError`; an absent column passes
through as JS null. -/
def parseSubField : RawField → Except Unit Json
  | .encoded s =>
    (match parseJson s with
     | some j => .ok j
     | none => .error ())
  | .value j => .ok j
  | .absent => .ok .null

/-- Embeds `typeof x === 'string' ? JSON.parse(x) : (x || [])` (the
photos and notes columns, src/index.js:53-54).  The `|| []` fallback
applies only on the non-string branch, exactly as in the source. -/
def parseListField : RawField → Except Unit Json
  | .encoded s =>
    (match parseJson s with
     | some j => .ok j
     | none => .error ())
  | .value j => .ok (if j.truthy then j else .arr [])
  | .absent => .ok (.arr [])

/-- The documented empty default for the warning sub-document. -/
def warningDefault : Json :=
  .obj [("cold_tolerance", .null), ("heat_tolerance", .null)]

/-- Embeds the warning column's parse with its `||` default
(src/index.js:55-58). -/
def parseWarningField : RawField → Except Unit Json
  | .encoded s =>
    (match parseJson s with
     | some j => .ok j
     | none => .error ())
  | .value j => .ok (if j.truthy then j else warningDefault)
  | .absent => .ok warningDefault

/-- JS property read `j[k]` on a parsed JSON value: an object field when
present, otherwise undefined (conflated here with null, which is how it
round-trips through the JSON response anyway). -/
def jsGet (j : Json) (k : String) : Json :=
  match j with
  | .obj fs => ((fs.lookup k).getD .null)
  | _ => .null

/-- Embeds the photo-normalisation callback of src/index.js:61-67.
Property access on a JS null element throws a TypeError, hence the
error case. -/
def normalizePhoto : Json → Except Unit Json
  | .null => .error ()
  | p => .ok (.obj [("id", jsGet p "photo_id"), ("filename", jsGet p "filename"),
      ("date_taken", jsGet p "date_taken"), ("date_uploaded", jsGet p "date_uploaded"),
      ("stage", jsGet p "stage")])

def normalizePhotoList : List Json → Except Unit (List Json)
  | [] => .ok []
  | p :: ps =>
    (match normalizePhoto p with
     | .error e => .error e
     | .ok q =>
       match normalizePhotoList ps with
       | .error e => .error e
       | .ok qs => .ok (q :: qs))

/-- Embeds `photos.map(photo => ...)` from src/index.js:61: calling
`.map` on anything but an array throws. -/
def normalizePhotos : Json → Except Unit Json
  | .arr ps =>
    (match normalizePhotoList ps with
     | .error e => .error e
     | .ok qs => .ok (.arr qs))
  | _ => .error ()

/-- The try-branch of the per-row callback of `GET /api/plants`
(src/index.js:47-84): parse each sub-document in source order and build
the aggregate; the first thrown error aborts the whole branch. -/
def assembleOk (row : RawPlantRow) : Except Unit PlantAggregate :=
  match parseSubField row.plant with
  | .error e => .error e
  | .ok plant_data =>
  match parseSubField row.variety with
  | .error e => .error e
  | .ok variety =>
  match parseSubField row.stage with
  | .error e => .error e
  | .ok stage =>
  match parseSubField row.location with
  | .error e => .error e
  | .ok location =>
  match parseListField row.photos with
  | .error e => .error e
  | .ok photos =>
  match parseListField row.notes with
  | .error e => .error e
  | .ok notes =>
  match parseWarningField row.warning with
  | .error e => .error e
  | .ok warning =>
  match normalizePhotos photos with
  | .error e => .error e
  | .ok normalizedPhotos =>
    .ok { plant_obj_id := row.plant_obj_id, user_id := row.user_id,
          plant := plant_data, variety := variety, stage := stage,
          location := location, photos := normalizedPhotos, notes := notes,
          warning := warning, date_updated := row.date_updated,
          date_planted := row.date_planted, is_transplant := row.is_transplant,
          status := row.status, current_temp := row.current_temp }

/-- The catch-branch fallback aggregate of src/index.js:90-108: every
sub-document is replaced by its empty default, scalar columns are
copied through. -/
def defaultAggregate (row : RawPlantRow) : PlantAggregate :=
  { plant_obj_id := row.plant_obj_id, user_id := row.user_id,
    plant := .obj [], variety := .obj [], stage := .obj [],
    location := .obj [], photos := .arr [], notes := .arr [],
    warning := warningDefault, date_updated := row.date_updated,
    date_planted := row.date_planted, is_transplant := row.is_transplant,
    status := row.status, current_temp := row.current_temp }

/-- The whole per-row callback: try-branch result, or the catch-branch
default when any parse step throws. -/
def assemble (row : RawPlantRow) : PlantAggregate :=
  match assembleOk row with
  | .ok agg => agg
  | .error _ => defaultAggregate row

/-- Embeds `results[0].map(plant => ...)`: per-row assembly over a
batch, order preserving. -/
def assembleMany (rows : List RawPlantRow) : List PlantAggregate :=
  rows.map assemble

/-- A calendar timestamp, the observable content of a JS `Date`. -/
structure DateTime where
  year : Nat
  month : Nat
  day : Nat
  hour : Nat
  minute : Nat
  second : Nat
deriving DecidableEq, Repr

def twoDigits (c1 c2 : Char) : Option Nat :=
  if c1.isDigit ∧ c2.isDigit then some ((c1.toNat - 48) * 10 + (c2.toNat - 48))
  else none

def fourDigits (c1 c2 c3 c4 : Char) : Option Nat :=
  if c1.isDigit ∧ c2.isDigit ∧ c3.isDigit ∧ c4.isDigit then
    some ((((c1.toNat - 48) * 10 + (c2.toNat - 48)) * 10 + (c3.toNat - 48)) * 10 + (c4.toNat - 48))
  else none

/-- Model of `new Date(s)` for the date-string shapes this code base
produces: `YYYY-MM-DD`, optionally followed by a space or `T` and
`HH:MM:SS`.  `none` is an Invalid Date (in JS a value, not an
exception: `new Date` never throws). -/
def jsParseDate (s : String) : Option DateTime :=
  match s.data with
  | y1 :: y2 :: y3 :: y4 :: '-' :: m1 :: m2 :: '-' :: d1 :: d2 :: rest =>
    (match fourDigits y1 y2 y3 y4, twoDigits m1 m2, twoDigits d1 d2 with
     | some y, some m, some d =>
       if m = 0 ∨ 12 < m ∨ d = 0 ∨ 31 < d then none
       else
         match rest with
         | [] => some ⟨y, m, d, 0, 0, 0⟩
         | sep :: h1 :: h2 :: ':' :: n1 :: n2 :: ':' :: s1 :: s2 :: [] =>
           if sep = ' ' ∨ sep = 'T' then
             match twoDigits h1 h2, twoDigits n1 n2, twoDigits s1 s2 with
             | some h, some n, some sec =>
               if 23 < h ∨ 59 < n ∨ 59 < sec then none
               else some ⟨y, m, d, h, n, sec⟩
             | _, _, _ => none
           else none
         | _ => none
     | _, _, _ => none)
  | _ => none

/-- The outcome of `ExifReader.load(buffer)` on the uploaded bytes:
the call threw, loaded but carried no `DateTimeOriginal.description`,
or yielded a description string.  This is the only input of
`getImageDate` the code observes. -/
inductive ExifResult where
  | loadError
  | noDate
  | date (description : String)
deriving DecidableEq, Repr

/-- Embeds `description.replace(/^(\d{4}):(\d{2}):(\d{2})/, '$1-$2-$3')`
(src/unnamed/part_003:63): the anchored leading `YYYY:MM:DD` has its two
colons rewritten to hyphens; any other string is left unchanged. -/
def normalizeExifDate (s : String) : String :=
  match s.data with
  | y1 :: y2 :: y3 :: y4 :: ':' :: m1 :: m2 :: ':' :: d1 :: d2 :: rest =>
    if y1.isDigit ∧ y2.isDigit ∧ y3.isDigit ∧ y4.isDigit ∧
       m1.isDigit ∧ m2.isDigit ∧ d1.isDigit ∧ d2.isDigit then
      String.mk (y1 :: y2 :: y3 :: y4 :: '-' :: m1 :: m2 :: '-' :: d1 :: d2 :: rest)
    else s
  | _ => s

/-- Embeds `getImageDate(buffer)` (src/unnamed/part_003:59-71).  The
try/catch around `ExifReader.load` is the `loadError` case; absence of
metadata and a load error both yield the current wall-clock time `now`.
The function is total: date extraction has no failure surface. -/
def getImageDate (exif : ExifResult) (now : DateTime) : Option DateTime :=
  match exif with
  | .date d => jsParseDate (normalizeExifDate d)
  | .noDate => some now
  | .loadError => some now

/-- The character class `[a-zA-Z0-9.-]` of the sanitisation regex. -/
def allowedChar (c : Char) : Bool :=
  c.isAlpha || c.isDigit || c = '.' || c = '-'

/-- Embeds `originalname.replace(/[^a-zA-Z0-9.-]/g, '-')`
(src/unnamed/part_001:37): every character outside the class is
replaced by a single hyphen. -/
def sanitizeFilename (s : String) : String :=
  String.mk (s.data.map fun c => if allowedChar c then c else '-')

/-- The sanitisation the spec describes instead: strip (remove) every
character outside `[A-Za-z0-9.-]`.  Declared only to compare with the
source's `sanitizeFilename`. -/
def specStripSanitize (s : String) : String :=
  String.mk (s.data.filter allowedChar)

/-- The object key built by `uploadFile` (src/unnamed/part_001:37):
`plants/<userId>/<plantObjId>/<uuid>-<sanitised original name>`. -/
def fileKey (userId plantObjId uuid originalname : String) : String :=
  "plants/" ++ userId ++ "/" ++ plantObjId ++ "/" ++ uuid ++ "-" ++
    sanitizeFilename originalname

/-- Embeds `uploadFile` (src/unnamed/part_001:32-48): puts the blob
under `fileKey` and returns the full public URL of the object. -/
def uploadFile (bucket userId plantObjId uuid originalname : String) : String :=
  "https://" ++ bucket ++ ".nyc3.digitaloceanspaces.com/" ++
    fileKey userId plantObjId uuid originalname

/-- Whether `sep` occurs as a contiguous substring of `s`. -/
def hasSub (sep : List Char) : List Char → Bool
  | [] => sep.isPrefixOf []
  | c :: t => sep.isPrefixOf (c :: t) || hasSub sep t

/-- Fuel-driven worker for `jsSplit`: scans `s`, accumulating the
current chunk in reverse in `acc`, and emits a chunk at each
occurrence of the non-empty separator `sep`. -/
def jsSplitAux (sep : List Char) : Nat → List Char → List Char → List (List Char)
  | 0, _, acc => [acc.reverse]
  | _ + 1, [], acc => [acc.reverse]
  | fuel + 1, c :: t, acc =>
    if sep ≠ [] ∧ sep.isPrefixOf (c :: t) then
      acc.reverse :: jsSplitAux sep fuel ((c :: t).drop sep.length) []
    else jsSplitAux sep fuel t (c :: acc)

/-- Model of the JS `String.prototype.split(sep)` with a non-empty
string separator: the list of chunks between the left-to-right
non-overlapping occurrences of `sep`. -/
def jsSplit (sep s : List Char) : List (List Char) :=
  jsSplitAux sep (s.length + 1) s []

/-- Embeds `deleteFile` (src/unnamed/part_001:51-61): the key handed to
`DeleteObjectCommand` is `fileUrl.split('.com/')[1]`; `none` is JS
undefined (no second chunk). -/
def deleteFile (fileUrl : String) : Option String :=
  ((jsSplit (".com/").data fileUrl.data).map fun l => String.mk l).get? 1

/-- An uploaded multipart file as multer presents it to a handler. -/
structure MulterFile where
  originalname : String
  mimetype : String
  size : Nat
deriving DecidableEq, Repr

/-- One external-effect call made by a handler, in program order. -/
inductive Ev where
  | s3Put (key : String)
  | s3Delete (key : String)
  | dbQuery (name : String)
  | dbBegin
  | dbInsert (table : String)
  | dbCommit
  | dbRollback
deriving DecidableEq, Repr

/-- A row of the `plant_stages` table (the legacy stage flow). -/
structure StageRow where
  plant_id : String
  status : String
  date_taken : Option DateTime
  image_url : String
deriving DecidableEq, Repr

/-- A row of the `photo` table (the `AddPhoto` flow). -/
structure PhotoRow where
  photo_id : Nat
  user_id : String
  plant_obj_id : String
  filename : String
  date_taken : Option DateTime
  stage_id : Option String
deriving DecidableEq, Repr

/-- The relational store visible to the modelled handlers. -/
structure Db where
  plants : List String
  plantStages : List StageRow
  photoRows : List PhotoRow
deriving DecidableEq, Repr

/-- Object-store bucket contents plus the relational store. -/
structure SysState where
  blobs : List String
  db : Db
deriving DecidableEq, Repr

/-- The observable outcome of a request: HTTP status and the `message`
field of the JSON body. -/
structure ApiResponse where
  status : Nat
  message : String
deriving DecidableEq, Repr

/-- Failure injection and ambient inputs for one upload request: the
generated uuid, the wall clock, the EXIF content of the uploaded
bytes, the bucket name, the id the `AddPhoto` procedure allocates, and
which external calls fail. -/
structure UploadEnv where
  uuid : String
  now : DateTime
  exif : ExifResult
  bucket : String
  spPhotoId : Nat
  s3PutFails : Bool
  insertFails : Bool
  selectFails : Bool
deriving DecidableEq, Repr

/-- Body and file of a `POST /api/plant-stages/upload` request
(src/unnamed/part_003).  `none` body fields are absent keys; JS also
treats an empty string as missing (falsy). -/
structure StageUploadReq where
  file : Option MulterFile
  status : Option String
  plantId : Option String
deriving DecidableEq, Repr

/-- Body and file of a `POST /api/photos/add` request (src/index.js). -/
structure PhotoAddReq where
  file : Option MulterFile
  userId : Option String
  plantObjId : Option String
  stageId : Option String
  dateTaken : Option String
deriving DecidableEq, Repr

/-- JS truthiness of an optional request-body string. -/
def strTruthy : Option String → Bool
  | none => false
  | some s => s ≠ ""

/-- Embeds the `POST /api/plant-stages/upload` handler of
src/unnamed/part_003:131-255: validate, check the plant exists, put
the blob, extract the date, then insert inside a transaction whose
failure rolls back the insert; the uploaded blob is never deleted.
Rows staged inside the transaction become visible only at commit. -/
def uploadStageHandler (env : UploadEnv) (req : StageUploadReq) (st : SysState) :
    ApiResponse × SysState × List Ev :=
  match req.file with
  | none => (⟨400, "Missing required fields"⟩, st, [])
  | some f =>
    if ¬ strTruthy req.status ∨ ¬ strTruthy req.plantId then
      (⟨400, "Missing required fields"⟩, st, [])
    else
      let plantId := req.plantId.getD ""
      if ¬ st.db.plants.contains plantId then
        (⟨404, "Plant not found"⟩, st, [.dbQuery "SelectPlantById"])
      else
        let key := "plants/" ++ plantId ++ "/" ++ env.uuid ++ "-" ++
          sanitizeFilename f.originalname
        if env.s3PutFails then
          (⟨500, "Error uploading image"⟩, st, [.dbQuery "SelectPlantById", .s3Put key])
        else
          let st1 : SysState := { st with blobs := st.blobs ++ [key] }
          let imageUrl := "https://" ++ env.bucket ++ ".nyc3.digitaloceanspaces.com/" ++ key
          let dateTaken := getImageDate env.exif env.now
          let evs : List Ev := [.dbQuery "SelectPlantById", .s3Put key, .dbBegin]
          if env.insertFails then
            (⟨500, "Error uploading image"⟩, st1, evs ++ [.dbInsert "plant_stages", .dbRollback])
          else if env.selectFails then
            (⟨500, "Error uploading image"⟩, st1,
             evs ++ [.dbInsert "plant_stages", .dbQuery "SelectUpdatedPlant", .dbRollback])
          else
            let row : StageRow := ⟨plantId, req.status.getD "", dateTaken, imageUrl⟩
            (⟨200, "Stage added successfully"⟩,
             { st1 with db := { st1.db with plantStages := st1.db.plantStages ++ [row] } },
             evs ++ [.dbInsert "plant_stages", .dbQuery "SelectUpdatedPlant", .dbCommit])

/-- Embeds the `POST /api/photos/add` handler of src/index.js:513-565:
validate, upload via `uploadFile`, resolve the date as
`dateTaken ? new Date(dateTaken) : new Date()` (line 525 - the EXIF
extractor is never consulted in this variant), then call `AddPhoto`. -/
def photosAddHandler (env : UploadEnv) (req : PhotoAddReq) (st : SysState) :
    ApiResponse × SysState × List Ev :=
  match req.file with
  | none => (⟨400, "Missing required fields"⟩, st, [])
  | some f =>
    if ¬ strTruthy req.userId ∨ ¬ strTruthy req.plantObjId then
      (⟨400, "Missing required fields"⟩, st, [])
    else
      let userId := req.userId.getD ""
      let plantObjId := req.plantObjId.getD ""
      let filename := fileKey userId plantObjId env.uuid f.originalname
      if env.s3PutFails then
        (⟨500, "Error adding photo"⟩, st, [.s3Put filename])
      else
        let st1 : SysState := { st with blobs := st.blobs ++ [filename] }
        let photoDate : Option DateTime :=
          if strTruthy req.dateTaken then jsParseDate (req.dateTaken.getD "")
          else some env.now
        if env.insertFails then
          (⟨500, "Error adding photo"⟩, st1, [.s3Put filename, .dbQuery "AddPhoto"])
        else
          let row : PhotoRow :=
            ⟨env.spPhotoId, userId, plantObjId, filename, photoDate, req.stageId⟩
          (⟨200, "ok"⟩,
           { st1 with db := { st1.db with photoRows := st1.db.photoRows ++ [row] } },
           [.s3Put filename, .dbQuery "AddPhoto"])

/-- Embeds the `POST /api/photos/add` handler of
src/unnamed/part_008:556-660, whose date resolution (lines 588-601) is
caller-supplied date first, otherwise `getImageDate` on the bytes. -/
def photosAddHandler008 (env : UploadEnv) (req : PhotoAddReq) (st : SysState) :
    ApiResponse × SysState × List Ev :=
  match req.file with
  | none => (⟨400, "Missing required fields"⟩, st, [])
  | some f =>
    if ¬ strTruthy req.userId ∨ ¬ strTruthy req.plantObjId then
      (⟨400, "Missing required fields"⟩, st, [])
    else
      let userId := req.userId.getD ""
      let plantObjId := req.plantObjId.getD ""
      let key := fileKey userId plantObjId env.uuid f.originalname
      if env.s3PutFails then
        (⟨500, "Error adding photo"⟩, st, [.s3Put key])
      else
        let st1 : SysState := { st with blobs := st.blobs ++ [key] }
        let imageUrl := "https://" ++ env.bucket ++ ".nyc3.digitaloceanspaces.com/" ++ key
        let photoDate : Option DateTime :=
          if strTruthy req.dateTaken then jsParseDate (req.dateTaken.getD "")
          else getImageDate env.exif env.now
        if env.insertFails then
          (⟨500, "Error adding photo"⟩, st1, [.s3Put key, .dbQuery "AddPhoto"])
        else
          let row : PhotoRow :=
            ⟨env.spPhotoId, userId, plantObjId, imageUrl, photoDate, req.stageId⟩
          (⟨200, "ok"⟩,
           { st1 with db := { st1.db with photoRows := st1.db.photoRows ++ [row] } },
           [.s3Put key, .dbQuery "AddPhoto"])

/-- What the `DeletePhoto` stored procedure reported: `results[0]?.[0]`
with its two columns, each possibly NULL. -/
structure DeleteSpRow where
  deleted_photo_id : Option Nat
  filename : Option String
deriving DecidableEq, Repr

/-- Failure injection for one delete request: whether the procedure
call threw, what row it returned, and whether the S3 delete throws. -/
structure DeleteEnv where
  spFails : Bool
  spResult : Option DeleteSpRow
  s3DeleteFails : Bool
deriving DecidableEq, Repr

/-- Path parameters of `DELETE /api/photos/:userId/:plantObjId/:photoId`. -/
structure DeletePhotoReq where
  userId : String
  plantObjId : String
  photoId : String
deriving DecidableEq, Repr

/-- Embeds the photo-deletion handler of src/index.js:568-603: call
`DeletePhoto`, answer 404 when it returned no row (or a row missing the
deleted id or filename), and only then issue the S3 delete with the
returned filename.  The relational delete happens inside the opaque
procedure, so the handler state is untouched here; the trace records
the external calls in program order. -/
def deletePhotoHandler (env : DeleteEnv) (_req : DeletePhotoReq) (st : SysState) :
    ApiResponse × SysState × List Ev :=
  if env.spFails then
    (⟨500, "Failed to delete photo"⟩, st, [.dbQuery "DeletePhoto"])
  else
    match env.spResult with
    | none => (⟨404, "Photo not found"⟩, st, [.dbQuery "DeletePhoto"])
    | some row =>
      match row.deleted_photo_id, row.filename with
      | some _, some fn =>
        if env.s3DeleteFails then
          (⟨500, "Failed to delete photo"⟩, st, [.dbQuery "DeletePhoto", .s3Delete fn])
        else
          (⟨200, "Photo deleted successfully"⟩,
           { st with blobs := st.blobs.filter (· ≠ fn) },
           [.dbQuery "DeletePhoto", .s3Delete fn])
      | _, _ => (⟨404, "Photo not found"⟩, st, [.dbQuery "DeletePhoto"])

/-- The multer file-size limit of every upload configuration in this
repository: `5 * 1024 * 1024` bytes. -/
def MAX_FILE_SIZE : Nat := 5 * 1024 * 1024

/-- The shared `fileFilter` (for example src/utils/s3.js:23-29):
accept exactly the files whose MIME type starts with `image/`. -/
def fileFilterAccepts (f : MulterFile) : Bool :=
  ("image/").data.isPrefixOf f.mimetype.data

/-- Model of the shared multer middleware composed with
`upload.single('image')`: more than one file, a file failing
`fileFilter`, or a file over the size limit is refused before the
route handler runs. -/
def multerSingle (files : List MulterFile) : Except String (Option MulterFile) :=
  match files with
  | [] => .ok none
  | [f] =>
    if ¬ fileFilterAccepts f then .error "Not an image! Please upload an image."
    else if MAX_FILE_SIZE < f.size then .error "File too large"
    else .ok (some f)
  | _ => .error "Unexpected field"

/-- A route mounted behind `upload.single('image')`: the handler body
runs only when the middleware accepted the request; a middleware error
is answered by the framework's error handler with no effects. -/
def routeWithUpload
    (handler : Option MulterFile → SysState → ApiResponse × SysState × List Ev)
    (files : List MulterFile) (st : SysState) : ApiResponse × SysState × List Ev :=
  match multerSingle files with
  | .error msg => (⟨500, msg⟩, st, [])
  | .ok fo => handler fo st

/-! Helper lemmas about the `jsSplit` model. -/

theorem hasSub_false_elim {sep : List Char} :
    ∀ {s : List Char}, hasSub sep s = false →
      ∀ i, sep.isPrefixOf (s.drop i) = false := by
  intro s
  induction s with
  | nil =>
    intro h i
    simpa [List.drop_nil, hasSub] using h
  | cons c t ih =>
    intro h i
    rw [hasSub, Bool.or_eq_false_iff] at h
    cases i with
    | zero => exact h.1
    | succ j => exact ih h.2 j

theorem jsSplitAux_fuel_irrelevant (sep : List Char) :
    ∀ fuel {s : List Char} (acc : List Char), s.length < fuel →
      jsSplitAux sep fuel s acc = jsSplitAux sep (s.length + 1) s acc := by
  intro fuel
  induction fuel using Nat.strong_induction_on with
  | _ fuel ih =>
    intro s acc hlt
    match fuel, hlt with
    | f + 1, hlt =>
      cases s with
      | nil => rfl
      | cons c t =>
        rw [jsSplitAux]
        conv_rhs => rw [jsSplitAux]
        by_cases hc : sep ≠ [] ∧ sep.isPrefixOf (c :: t)
        · simp only [if_pos hc]
          have hns : 1 ≤ sep.length := by
            rcases hc with ⟨hne, _⟩
            cases sep with
            | nil => exact absurd rfl hne
            | cons a l => simp
          have hlen : sep.length ≤ (c :: t).length :=
            List.IsPrefix.length_le (List.isPrefixOf_iff_prefix.mp hc.2)
          have hdl := List.length_drop sep.length (c :: t)
          have hct : (c :: t).length = t.length + 1 := by simp
          congr 1
          rw [ih f (by omega) [] (by omega),
              ih ((c :: t).length) (by omega) [] (by omega)]
        · simp only [if_neg hc]
          have hct : (c :: t).length = t.length + 1 := by simp
          rw [ih f (by omega) (c :: acc) (by simp at hlt; omega),
              ih ((c :: t).length) (by omega) (c :: acc) (by omega)]

theorem jsSplitAux_no_occurrence {sep : List Char} :
    ∀ {s : List Char} (acc : List Char) (fuel : Nat), s.length < fuel →
      hasSub sep s = false → jsSplitAux sep fuel s acc = [acc.reverse ++ s] := by
  intro s
  induction s with
  | nil =>
    intro acc fuel hf _
    match fuel, hf with
    | f + 1, _ => simp [jsSplitAux]
  | cons c t ih =>
    intro acc fuel hf h
    match fuel, hf with
    | f + 1, hf =>
      rw [hasSub, Bool.or_eq_false_iff] at h
      rw [jsSplitAux]
      simp only [h.1, and_false, if_false]
      have ht : t.length < f := by simp at hf; omega
      rw [ih (c :: acc) f ht h.2]
      simp

theorem jsSplit_no_occurrence {sep s : List Char}
    (h : hasSub sep s = false) : jsSplit sep s = [s] := by
  rw [jsSplit, jsSplitAux_no_occurrence _ _ (by omega) h]
  simp

theorem take_inner {sep B : List Char} {m : Nat} (hm : m + 1 ≤ sep.length) :
    (sep ++ B).take m = sep.dropLast.take m := by
  rw [List.take_append_of_le_length (by omega), List.dropLast_eq_take,
      List.take_take]
  congr 1
  omega

theorem take_boundary_eq {x sep B : List Char} (hx : 1 ≤ x.length) :
    (x ++ (sep ++ B)).take sep.length = (x ++ sep.dropLast).take sep.length := by
  conv_lhs => rw [List.take_append_eq_append_take]
  conv_rhs => rw [List.take_append_eq_append_take]
  congr 1
  by_cases hxs : sep.length ≤ x.length
  · have h0 : sep.length - x.length = 0 := by omega
    simp [h0]
  · exact take_inner (by omega)

theorem isPrefixOf_congr_take {sep u v : List Char}
    (h : u.take sep.length = v.take sep.length) :
    sep.isPrefixOf u = sep.isPrefixOf v := by
  have hiff : sep.isPrefixOf u = true ↔ sep.isPrefixOf v = true := by
    rw [List.isPrefixOf_iff_prefix, List.isPrefixOf_iff_prefix,
        List.prefix_iff_eq_take, List.prefix_iff_eq_take, h]
  by_cases hu : sep.isPrefixOf u
  · rw [hu, hiff.mp hu]
  · rw [Bool.eq_false_iff.mpr hu,
        Bool.eq_false_iff.mpr (fun hv => hu (hiff.mpr hv))]

theorem jsSplitAux_boundary {sep : List Char} (hsep : sep ≠ []) :
    ∀ {A : List Char} (B acc : List Char) (fuel : Nat),
      (A ++ sep ++ B).length < fuel →
      hasSub sep (A ++ sep.dropLast) = false →
      jsSplitAux sep fuel (A ++ sep ++ B) acc = (acc.reverse ++ A) :: jsSplit sep B := by
  intro A
  induction A with
  | nil =>
    intro B acc fuel hf _
    match sep, hsep with
    | d :: sep', _ =>
      match fuel, hf with
      | f + 1, hf =>
        have hshape : ([] : List Char) ++ (d :: sep') ++ B = d :: (sep' ++ B) := by simp
        rw [hshape, jsSplitAux]
        have hpre : (d :: sep').isPrefixOf (d :: (sep' ++ B)) = true :=
          List.isPrefixOf_iff_prefix.mpr (by simp)
        simp only [hpre, ne_eq, reduceCtorEq, not_false_eq_true, and_self, if_true]
        have hdrop : (d :: (sep' ++ B)).drop (d :: sep').length = B := by
          simp only [List.length_cons, List.drop_succ_cons]
          exact List.drop_left sep' B
        rw [hdrop]
        have hB : B.length < f := by
          rw [hshape] at hf
          simp at hf
          omega
        rw [jsSplitAux_fuel_irrelevant _ f _ hB]
        simp [jsSplit]
  | cons c A' ih =>
    intro B acc fuel hf h
    match fuel, hf with
    | f + 1, hf =>
      have h' : hasSub sep (A' ++ sep.dropLast) = false ∧
          sep.isPrefixOf (c :: (A' ++ sep.dropLast)) = false := by
        rw [List.cons_append, hasSub, Bool.or_eq_false_iff] at h
        exact ⟨h.2, h.1⟩
      have hpre : sep.isPrefixOf (c :: (A' ++ sep ++ B)) = false := by
        have hx : (1 : Nat) ≤ (c :: A').length := by simp
        have := @take_boundary_eq (c :: A') sep B hx
        have hcongr := @isPrefixOf_congr_take sep _ _ this
        simp only [List.cons_append, List.append_assoc] at hcongr ⊢
        rw [hcongr]
        simpa using h'.2
      have hshape : (c :: A') ++ sep ++ B = c :: (A' ++ sep ++ B) := by simp
      rw [hshape, jsSplitAux]
      simp only [hpre, and_false, if_false]
      have hlen : (A' ++ sep ++ B).length < f := by
        rw [hshape] at hf
        simp at hf ⊢
        omega
      rw [ih B (c :: acc) f hlen h'.1]
      simp

/-! Claim theorems. -/

/-- C7: for every byte buffer, `getImageDate` never fails with an
error (it is a total function whose only inputs are the EXIF load
outcome and the wall clock): when metadata is absent or the EXIF load
throws it returns the current wall-clock time, and on metadata
`2023:05:10 14:00:00` it normalizes the leading `YYYY:MM:DD`
punctuation to `YYYY-MM-DD` and returns calendar date 2023-05-10. -/
theorem c7_getImageDate_fallback (now : DateTime) (r : ExifResult)
    (h : r = ExifResult.noDate ∨ r = ExifResult.loadError) :
    getImageDate r now = some now ∧
    normalizeExifDate "2023:05:10 14:00:00" = "2023-05-10 14:00:00" ∧
    getImageDate (ExifResult.date "2023:05:10 14:00:00") now =
      some ⟨2023, 5, 10, 14, 0, 0⟩ := by
  refine ⟨?_, rfl, rfl⟩
  rcases h with h | h <;> subst h <;> rfl

theorem c7_witness :
    getImageDate ExifResult.noDate ⟨1970, 1, 1, 0, 0, 0⟩ =
      some ⟨1970, 1, 1, 0, 0, 0⟩ :=
  (c7_getImageDate_fallback ⟨1970, 1, 1, 0, 0, 0⟩ ExifResult.noDate (Or.inl rfl)).1

/-- C8 counterexample: the source replaces each character outside
`[A-Za-z0-9.-]` with a hyphen instead of stripping it, so for the
original name "a b.jpg" the generated key differs from the claimed
`<scopes>/<uuid>-<stripped name>` form. -/
theorem c8_counterexample :
    sanitizeFilename "a b.jpg" = "a-b.jpg" ∧
    specStripSanitize "a b.jpg" = "ab.jpg" ∧
    fileKey "1" "2" "u" "a b.jpg" = "plants/1/2/u-a-b.jpg" ∧
    fileKey "1" "2" "u" "a b.jpg" ≠ "plants/1/2/u-" ++ specStripSanitize "a b.jpg" := by
  refine ⟨rfl, rfl, rfl, ?_⟩
  decide

/-- C8 (amended): the key has the form
`plants/<userId>/<plantObjId>/<uuid>-<sanitised name>` where
sanitisation replaces (does not strip) every character outside
`[A-Za-z0-9.-]` with a hyphen: the sanitised name has the same length
as the original, consists only of characters of the class, and leaves
characters already in the class unchanged in place. -/
theorem c8_sanitize_replaces (s u p id : String) :
    fileKey u p id s =
      "plants/" ++ u ++ "/" ++ p ++ "/" ++ id ++ "-" ++ sanitizeFilename s ∧
    (sanitizeFilename s).data.length = s.data.length ∧
    (∀ c ∈ (sanitizeFilename s).data, allowedChar c = true) ∧
    (∀ (i : Nat) (c : Char), s.data[i]? = some c → allowedChar c = true →
      (sanitizeFilename s).data[i]? = some c) := by
  refine ⟨rfl, by simp [sanitizeFilename], ?_, ?_⟩
  · intro c hc
    simp only [sanitizeFilename, List.mem_map] at hc
    obtain ⟨c', _, rfl⟩ := hc
    by_cases h : allowedChar c'
    · simp [h]
    · simp [h]
      decide
  · intro i c hi hc
    simp [sanitizeFilename, List.getElem?_map, hi, hc]

theorem c8_witness :
    (sanitizeFilename "a b.jpg").data[0]? = some 'a' :=
  ((c8_sanitize_replaces "a b.jpg" "1" "2" "u").2.2.2) 0 'a' rfl rfl

/-- C9 counterexample: the inputs "a.com", "5" and "f.jpg" contain no
occurrence of ".com/", yet the key extracted by `deleteFile` from the
URL returned by `uploadFile` is "plants/a", not the stored key
"plants/a.com/5/u-f.jpg" - the split cuts at the ".com/" formed by the
userId followed by the path slash. -/
theorem c9_counterexample :
    hasSub (".com/").data ("a.com").data = false ∧
    hasSub (".com/").data ("5").data = false ∧
    hasSub (".com/").data ("f.jpg").data = false ∧
    deleteFile (uploadFile "bloom" "a.com" "5" "u" "f.jpg") = some "plants/a" ∧
    fileKey "a.com" "5" "u" "f.jpg" = "plants/a.com/5/u-f.jpg" ∧
    deleteFile (uploadFile "bloom" "a.com" "5" "u" "f.jpg") ≠
      some (fileKey "a.com" "5" "u" "f.jpg") := by
  refine ⟨rfl, rfl, rfl, rfl, rfl, ?_⟩
  decide

/-- C9 (amended): delete-after-upload removes the object that was put
whenever the constructed file key itself contains no occurrence of
".com/" and the URL prefix `https://<bucket>.nyc3.digitaloceanspaces.com`
contains no occurrence of ".com/" before its terminal one: then the key
extracted by `deleteFile` from the URL returned by `uploadFile` is
exactly the stored `fileKey`. -/
theorem c9_upload_delete_roundtrip (bucket userId plantObjId uuid originalname : String)
    (hpre : hasSub (".com/").data
      ("https://" ++ bucket ++ ".nyc3.digitaloceanspaces.com").data = false)
    (hkey : hasSub (".com/").data
      (fileKey userId plantObjId uuid originalname).data = false) :
    deleteFile (uploadFile bucket userId plantObjId uuid originalname) =
      some (fileKey userId plantObjId uuid originalname) := by
  have hsep : (".com/").data ≠ [] := by decide
  have hurl : ("https://" ++ bucket ++ ".nyc3.digitaloceanspaces.com/" ++
        fileKey userId plantObjId uuid originalname).data =
      ("https://" ++ bucket ++ ".nyc3.digitaloceanspaces").data ++ (".com/").data ++
        (fileKey userId plantObjId uuid originalname).data := by
    simp only [String.data_append, List.append_assoc]
    rfl
  have hpre' : hasSub (".com/").data
      (("https://" ++ bucket ++ ".nyc3.digitaloceanspaces").data ++
        (".com/").data.dropLast) = false := by
    have he : ("https://" ++ bucket ++ ".nyc3.digitaloceanspaces").data ++
        (".com/").data.dropLast =
        ("https://" ++ bucket ++ ".nyc3.digitaloceanspaces.com").data := by
      simp only [String.data_append, List.append_assoc]
      rfl
    rw [he]
    exact hpre
  unfold deleteFile uploadFile
  rw [hurl, jsSplit,
      jsSplitAux_boundary hsep _ _ _ (by omega) hpre',
      jsSplit_no_occurrence hkey]
  simp

theorem c9_witness :
    deleteFile (uploadFile "bloom" "7" "42" "abc" "rose bud.jpg") =
      some (fileKey "7" "42" "abc" "rose bud.jpg") :=
  c9_upload_delete_roundtrip "bloom" "7" "42" "abc" "rose bud.jpg" rfl rfl

/-- C10: every upload route sits behind the shared multer middleware,
so a request whose file exceeds 5*1024*1024 bytes or whose MIME type
does not start with "image/" is answered by the framework before the
handler body runs, with the state unchanged and no external calls;
and whenever the middleware accepts, at most one file - an image
within the limit - reaches the handler. -/
theorem c10_multer_gate
    (handler : Option MulterFile → SysState → ApiResponse × SysState × List Ev)
    (files : List MulterFile) (st : SysState) :
    ((∃ f ∈ files, MAX_FILE_SIZE < f.size ∨ fileFilterAccepts f = false) →
      ∃ msg, routeWithUpload handler files st = (⟨500, msg⟩, st, [])) ∧
    (∀ fo, multerSingle files = Except.ok fo →
      files.length ≤ 1 ∧ ∀ f ∈ files, f.size ≤ MAX_FILE_SIZE ∧ fileFilterAccepts f = true) := by
  constructor
  · rintro ⟨f, hmem, hbad⟩
    match files, hmem with
    | [g], hmem =>
      have hfg : f = g := by simpa using hmem
      subst hfg
      rcases hbad with hbad | hbad
      · by_cases hff : fileFilterAccepts f
        · exact ⟨"File too large", by
            simp [routeWithUpload, multerSingle, hff, hbad]⟩
        · exact ⟨"Not an image! Please upload an image.", by
            simp [routeWithUpload, multerSingle, hff]⟩
      · exact ⟨"Not an image! Please upload an image.", by
          simp [routeWithUpload, multerSingle, hbad]⟩
    | g :: g' :: t, _ =>
      exact ⟨"Unexpected field", by simp [routeWithUpload, multerSingle]⟩
  · intro fo hok
    match files, hok with
    | [], _ => exact ⟨by simp, by simp⟩
    | [g], hok =>
      refine ⟨by simp, ?_⟩
      intro f hf
      have hfg : f = g := by simpa using hf
      subst hfg
      rw [multerSingle] at hok
      by_cases hff : fileFilterAccepts f
      · by_cases hsz : MAX_FILE_SIZE < f.size
        · rw [if_neg (by simp [hff]), if_pos hsz] at hok
          exact absurd hok (by simp)
        · exact ⟨by omega, hff⟩
      · rw [if_pos (by simp [hff])] at hok
        exact absurd hok (by simp)

theorem c10_witness :
    ∃ msg, routeWithUpload (fun _ st => (⟨200, "ok"⟩, st, []))
        [⟨"f.txt", "text/plain", 10⟩] ⟨[], ⟨[], [], []⟩⟩ =
      (⟨500, msg⟩, ⟨[], ⟨[], [], []⟩⟩, []) :=
  (c10_multer_gate (fun _ st => (⟨200, "ok"⟩, st, []))
      [⟨"f.txt", "text/plain", 10⟩] ⟨[], ⟨[], [], []⟩⟩).1
    ⟨⟨"f.txt", "text/plain", 10⟩, by simp, Or.inr (by decide)⟩

/-- C3: on every upload request missing the binary payload, the
owning-plant identifier (with the user identifier in the photo flow)
or, in the legacy stage flow, the status label, both modelled handlers
answer 400 with body message "Missing required fields", leave the
stores untouched and make no external call at all. -/
theorem c3_validation_no_side_effects :
    (∀ env req st, (req.file = none ∨ strTruthy req.userId = false ∨
        strTruthy req.plantObjId = false) →
      photosAddHandler env req st = (⟨400, "Missing required fields"⟩, st, [])) ∧
    (∀ env req st, (req.file = none ∨ strTruthy req.status = false ∨
        strTruthy req.plantId = false) →
      uploadStageHandler env req st = (⟨400, "Missing required fields"⟩, st, [])) := by
  constructor
  · intro env req st h
    cases hf : req.file with
    | none => simp [photosAddHandler, hf]
    | some f =>
      rcases h with h | h | h
      · exact absurd (hf ▸ h) (by simp)
      · simp [photosAddHandler, hf, h]
      · simp [photosAddHandler, hf, h]
  · intro env req st h
    cases hf : req.file with
    | none => simp [uploadStageHandler, hf]
    | some f =>
      rcases h with h | h | h
      · exact absurd (hf ▸ h) (by simp)
      · simp [uploadStageHandler, hf, h]
      · simp [uploadStageHandler, hf, h]

theorem c3_witness :
    photosAddHandler ⟨"u", ⟨2024, 1, 1, 0, 0, 0⟩, ExifResult.noDate, "b", 1, false, false, false⟩
        ⟨none, some "1", some "2", none, none⟩ ⟨[], ⟨[], [], []⟩⟩ =
      (⟨400, "Missing required fields"⟩, ⟨[], ⟨[], [], []⟩⟩, []) :=
  c3_validation_no_side_effects.1 _ _ _ (Or.inl rfl)

/-- C2: when validation passes, the plant exists and the blob upload
succeeds but the relational insert fails, the legacy stage-upload
handler answers 500, the relational store is exactly what it was (the
open transaction rolled back), the uploaded blob is still in the
bucket, a rollback was issued and no object-store delete was ever
called. -/
theorem c2_upload_atomicity (env : UploadEnv) (req : StageUploadReq)
    (st : SysState) (f : MulterFile)
    (hfile : req.file = some f)
    (hstatus : strTruthy req.status = true)
    (hplant : strTruthy req.plantId = true)
    (hexists : st.db.plants.contains (req.plantId.getD "") = true)
    (hs3 : env.s3PutFails = false)
    (hins : env.insertFails = true) :
    (uploadStageHandler env req st).1.status = 500 ∧
    (uploadStageHandler env req st).2.1.db = st.db ∧
    (uploadStageHandler env req st).2.1.blobs =
      st.blobs ++ ["plants/" ++ req.plantId.getD "" ++ "/" ++ env.uuid ++ "-" ++
        sanitizeFilename f.originalname] ∧
    Ev.dbRollback ∈ (uploadStageHandler env req st).2.2 ∧
    ∀ k, Ev.s3Delete k ∉ (uploadStageHandler env req st).2.2 := by
  have hmem : req.plantId.getD "" ∈ st.db.plants := by simpa using hexists
  simp [uploadStageHandler, hfile, hstatus, hplant, hmem, hs3, hins]

theorem c2_witness :
    (uploadStageHandler ⟨"u", ⟨2024, 1, 1, 0, 0, 0⟩, ExifResult.noDate, "b", 1, false, true, false⟩
        ⟨some ⟨"f.jpg", "image/jpeg", 10⟩, some "germinated", some "42"⟩
        ⟨[], ⟨["42"], [], []⟩⟩).2.1.db = ⟨["42"], [], []⟩ :=
  (c2_upload_atomicity
    ⟨"u", ⟨2024, 1, 1, 0, 0, 0⟩, ExifResult.noDate, "b", 1, false, true, false⟩
    ⟨some ⟨"f.jpg", "image/jpeg", 10⟩, some "germinated", some "42"⟩
    ⟨[], ⟨["42"], [], []⟩⟩ ⟨"f.jpg", "image/jpeg", 10⟩ rfl rfl rfl rfl rfl rfl).2.1

/-- C4: whenever the `DeletePhoto` procedure reports that nothing
matched (it threw no error and returned no row), the handler answers
404 and never issues an object-store delete; and in every run, an
object-store delete appears in the trace only when the procedure
returned a row carrying the deleted identifier and filename, and only
at a position strictly after the database delete call. -/
theorem c4_delete_db_first (env : DeleteEnv) (req : DeletePhotoReq) (st : SysState) :
    (env.spFails = false → env.spResult = none →
      (deletePhotoHandler env req st).1.status = 404 ∧
      ∀ k, Ev.s3Delete k ∉ (deletePhotoHandler env req st).2.2) ∧
    (∀ k i, ((deletePhotoHandler env req st).2.2).get? i = some (Ev.s3Delete k) →
      (∃ row pid, env.spResult = some row ∧ row.deleted_photo_id = some pid ∧
        row.filename = some k) ∧
      ∃ j, j < i ∧
        ((deletePhotoHandler env req st).2.2).get? j = some (Ev.dbQuery "DeletePhoto")) := by
  constructor
  · intro hsp hres
    simp [deletePhotoHandler, hsp, hres]
  · intro k i hi
    by_cases hsp : env.spFails
    · simp [deletePhotoHandler, hsp] at hi
      rcases i with _ | i <;> simp at hi
    · cases hres : env.spResult with
      | none =>
        simp [deletePhotoHandler, hsp, hres] at hi
        rcases i with _ | i <;> simp at hi
      | some row =>
        cases hid : row.deleted_photo_id with
        | none =>
          simp [deletePhotoHandler, hsp, hres, hid] at hi
          rcases i with _ | i <;> simp at hi
        | some pid =>
          cases hfn : row.filename with
          | none =>
            simp [deletePhotoHandler, hsp, hres, hid, hfn] at hi
            rcases i with _ | i <;> simp at hi
          | some fn =>
            have htrace : (deletePhotoHandler env req st).2.2 =
                [Ev.dbQuery "DeletePhoto", Ev.s3Delete fn] := by
              by_cases hdel : env.s3DeleteFails <;>
                simp [deletePhotoHandler, hsp, hres, hid, hfn, hdel]
            rw [htrace] at hi
            rcases i with _ | i
            · simp at hi
            · rcases i with _ | i
              · simp at hi
                subst hi
                exact ⟨⟨row, pid, rfl, hid, hfn⟩, 0, by omega, by rw [htrace]; rfl⟩
              · simp at hi

theorem c4_witness :
    (deletePhotoHandler ⟨false, none, false⟩ ⟨"1", "2", "3"⟩ ⟨[], ⟨[], [], []⟩⟩).1.status = 404 :=
  ((c4_delete_db_first ⟨false, none, false⟩ ⟨"1", "2", "3"⟩ ⟨[], ⟨[], [], []⟩⟩).1 rfl rfl).1

/-- The upload environment of the C6 counterexample: the uploaded
bytes carry EXIF metadata `2023:05:10 14:00:00`, and the wall clock
reads 2024-01-01. -/
def c6env : UploadEnv :=
  ⟨"u", ⟨2024, 1, 1, 0, 0, 0⟩, ExifResult.date "2023:05:10 14:00:00", "b", 7,
   false, false, false⟩

/-- The request of the C6 counterexample: a valid photo upload with no
caller-supplied date. -/
def c6req : PhotoAddReq :=
  ⟨some ⟨"f.jpg", "image/jpeg", 10⟩, some "1", some "2", none, none⟩

/-- C6 counterexample: in the `POST /api/photos/add` handler of
src/index.js (line 525), a request with no caller-supplied date whose
bytes do carry EXIF metadata gets the current wall-clock time
recorded, not the metadata date: the Image Metadata Extractor is never
invoked in that variant, refuting the claim for "every photo upload". -/
theorem c6_counterexample :
    c6req.dateTaken = none ∧
    (photosAddHandler c6env c6req ⟨[], ⟨[], [], []⟩⟩).2.1.db.photoRows.map
        (fun r => r.date_taken) = [some ⟨2024, 1, 1, 0, 0, 0⟩] ∧
    getImageDate c6env.exif c6env.now = some ⟨2023, 5, 10, 14, 0, 0⟩ ∧
    some (⟨2024, 1, 1, 0, 0, 0⟩ : DateTime) ≠ some (⟨2023, 5, 10, 14, 0, 0⟩ : DateTime) := by
  refine ⟨rfl, rfl, rfl, ?_⟩
  decide

/-- C6 (amended): a caller-supplied date always takes precedence; when
it is absent, the part_008 variant of the handler derives the recorded
date by invoking the Image Metadata Extractor on the uploaded bytes
(which itself falls back to the current time), while the src/index.js
variant records the current wall-clock time directly and never
invokes the extractor. -/
theorem c6_date_resolution (env : UploadEnv) (req : PhotoAddReq) (st : SysState)
    (f : MulterFile) (hfile : req.file = some f)
    (hu : strTruthy req.userId = true) (hp : strTruthy req.plantObjId = true)
    (hs3 : env.s3PutFails = false) (hins : env.insertFails = false) :
    ((photosAddHandler008 env req st).2.1.db.photoRows.map (fun r => r.date_taken) =
      st.db.photoRows.map (fun r => r.date_taken) ++
        [if strTruthy req.dateTaken then jsParseDate (req.dateTaken.getD "")
         else getImageDate env.exif env.now]) ∧
    ((photosAddHandler env req st).2.1.db.photoRows.map (fun r => r.date_taken) =
      st.db.photoRows.map (fun r => r.date_taken) ++
        [if strTruthy req.dateTaken then jsParseDate (req.dateTaken.getD "")
         else some env.now]) := by
  constructor
  · by_cases hd : strTruthy req.dateTaken <;>
      simp [photosAddHandler008, hfile, hu, hp, hs3, hins, hd]
  · by_cases hd : strTruthy req.dateTaken <;>
      simp [photosAddHandler, hfile, hu, hp, hs3, hins, hd]

theorem c6_witness :
    (photosAddHandler008 c6env c6req ⟨[], ⟨[], [], []⟩⟩).2.1.db.photoRows.map
        (fun r => r.date_taken) = [getImageDate c6env.exif c6env.now] :=
  (c6_date_resolution c6env c6req ⟨[], ⟨[], [], []⟩⟩
    ⟨"f.jpg", "image/jpeg", 10⟩ rfl rfl rfl rfl rfl).1

/-- The row of the C1 counterexample: the variety column is a
malformed JSON-encoded string, every sibling sub-document column
carries a well-formed structured value. -/
def c1row : RawPlantRow :=
  { plant_obj_id := .num 10 0, user_id := .num 1 0,
    plant := .value (.obj []),
    variety := .encoded "\x7bnot json",
    stage := .value (.obj [("id", .num 1 0)]),
    location := .value (.obj []),
    photos := .value (.arr []),
    notes := .value (.arr []),
    warning := .value warningDefault,
    date_updated := .null, date_planted := .null,
    is_transplant := .bool false, status := .str "active",
    current_temp := .null }

/-- C1 counterexample: with only the variety malformed and the stage
column well formed, the per-row catch of `GET /api/plants` resets the
stage (and every other sub-document) to its empty default instead of
populating it from the row, refuting the claim that siblings survive
a single field's corruption. -/
theorem c1_counterexample :
    parseJson "\x7bnot json" = none ∧
    c1row.variety = RawField.encoded "\x7bnot json" ∧
    c1row.stage = RawField.value (Json.obj [("id", Json.num 1 0)]) ∧
    (assemble c1row).variety = Json.obj [] ∧
    (assemble c1row).stage = Json.obj [] ∧
    (assemble c1row).stage ≠ Json.obj [("id", Json.num 1 0)] := by
  refine ⟨rfl, rfl, rfl, rfl, rfl, ?_⟩
  intro h
  have h0 : (assemble c1row).stage = Json.obj [] := rfl
  rw [h0] at h
  simp at h

/-- C1 (amended): a malformed JSON-encoded variety column makes the
per-row try/catch of `GET /api/plants` fall back to the catch branch,
which sets every sub-document field of that row - not only the
malformed one - to its empty default, while preserving the scalar
columns; sibling rows are assembled independently. -/
theorem c1_row_level_fallback (row : RawPlantRow)
    (h : parseSubField row.variety = Except.error ()) :
    assemble row = defaultAggregate row := by
  have hok : assembleOk row = Except.error () := by
    cases hp : parseSubField row.plant with
    | error e => simp [assembleOk, hp]
    | ok v => simp [assembleOk, hp, h]
  simp [assemble, hok]

theorem c1_witness : assemble c1row = defaultAggregate c1row :=
  c1_row_level_fallback c1row rfl

/-- The row of the C5 counterexample: every sub-document column is
absent (SQL NULL). -/
def c5row : RawPlantRow :=
  { plant_obj_id := .null, user_id := .null,
    plant := .absent, variety := .absent, stage := .absent,
    location := .absent, photos := .absent, notes := .absent,
    warning := .absent,
    date_updated := .null, date_planted := .null, is_transplant := .null,
    status := .null, current_temp := .null }

/-- C5 counterexample: on the success path the variety, stage and
location columns have no `||` fallback, so an absent variety passes
through as null and the assembled aggregate carries null for that
sub-document, refuting the claim that it never does. -/
theorem c5_counterexample :
    c5row.variety = RawField.absent ∧
    (assemble c5row).variety = Json.null ∧
    (assemble c5row).stage = Json.null ∧
    (assemble c5row).photos = Json.arr [] ∧
    (assemble c5row).warning = warningDefault :=
  ⟨rfl, rfl, rfl, rfl, rfl⟩

theorem normalizePhotos_ok_arr {j v : Json} (h : normalizePhotos j = Except.ok v) :
    ∃ xs, v = Json.arr xs := by
  cases j with
  | arr ps =>
    simp only [normalizePhotos] at h
    cases hq : normalizePhotoList ps with
    | error e => rw [hq] at h; exact absurd h (by simp)
    | ok qs =>
      rw [hq] at h
      simp only [Except.ok.injEq] at h
      exact ⟨qs, h.symm⟩
  | null => simp [normalizePhotos] at h
  | bool b => simp [normalizePhotos] at h
  | num m k => simp [normalizePhotos] at h
  | str s => simp [normalizePhotos] at h
  | obj fs => simp [normalizePhotos] at h

/-- Complete case analysis of one assembly run: either the catch
branch produced the all-default aggregate, or every parse step
succeeded and the aggregate is built from the parsed values. -/
theorem assemble_cases (row : RawPlantRow) :
    assemble row = defaultAggregate row ∨
    ∃ pl v s l ph n w nph,
      parseSubField row.plant = Except.ok pl ∧
      parseSubField row.variety = Except.ok v ∧
      parseSubField row.stage = Except.ok s ∧
      parseSubField row.location = Except.ok l ∧
      parseListField row.photos = Except.ok ph ∧
      parseListField row.notes = Except.ok n ∧
      parseWarningField row.warning = Except.ok w ∧
      normalizePhotos ph = Except.ok nph ∧
      assemble row =
        { plant_obj_id := row.plant_obj_id, user_id := row.user_id,
          plant := pl, variety := v, stage := s, location := l,
          photos := nph, notes := n, warning := w,
          date_updated := row.date_updated, date_planted := row.date_planted,
          is_transplant := row.is_transplant, status := row.status,
          current_temp := row.current_temp } := by
  cases h1 : parseSubField row.plant with
  | error e => left; simp [assemble, assembleOk, h1]
  | ok pl =>
  cases h2 : parseSubField row.variety with
  | error e => left; simp [assemble, assembleOk, h1, h2]
  | ok v =>
  cases h3 : parseSubField row.stage with
  | error e => left; simp [assemble, assembleOk, h1, h2, h3]
  | ok s =>
  cases h4 : parseSubField row.location with
  | error e => left; simp [assemble, assembleOk, h1, h2, h3, h4]
  | ok l =>
  cases h5 : parseListField row.photos with
  | error e => left; simp [assemble, assembleOk, h1, h2, h3, h4, h5]
  | ok ph =>
  cases h6 : parseListField row.notes with
  | error e => left; simp [assemble, assembleOk, h1, h2, h3, h4, h5, h6]
  | ok n =>
  cases h7 : parseWarningField row.warning with
  | error e => left; simp [assemble, assembleOk, h1, h2, h3, h4, h5, h6, h7]
  | ok w =>
  cases h8 : normalizePhotos ph with
  | error e => left; simp [assemble, assembleOk, h1, h2, h3, h4, h5, h6, h7, h8]
  | ok nph =>
    right
    exact ⟨pl, v, s, l, ph, n, w, nph, rfl, rfl, rfl, rfl, rfl, rfl, rfl, h8,
      by simp [assemble, assembleOk, h1, h2, h3, h4, h5, h6, h7, h8]⟩

/-- C5 (amended): the photos sub-document of an assembled aggregate is
always a list (on both paths), and an absent notes or warning column
does get its empty default; but variety, stage and location have no
fallback on the success path, where an absent column passes through as
null (see the counterexample). -/
theorem c5_subdocument_defaults :
    (∀ row, ∃ xs, (assemble row).photos = Json.arr xs) ∧
    (∀ row, row.notes = RawField.absent → (assemble row).notes = Json.arr []) ∧
    (∀ row, row.warning = RawField.absent → (assemble row).warning = warningDefault) := by
  refine ⟨?_, ?_, ?_⟩
  · intro row
    rcases assemble_cases row with h | ⟨pl, v, s, l, ph, n, w, nph,
      _, _, _, _, _, _, _, h8, hEq⟩
    · exact ⟨[], by rw [h]; rfl⟩
    · obtain ⟨xs, rfl⟩ := normalizePhotos_ok_arr h8
      exact ⟨xs, by rw [hEq]⟩
  · intro row hn
    rcases assemble_cases row with h | ⟨pl, v, s, l, ph, n, w, nph,
      _, _, _, _, _, h6, _, _, hEq⟩
    · rw [h]; rfl
    · rw [hn] at h6
      simp only [parseListField, Except.ok.injEq] at h6
      rw [hEq]
      exact h6.symm
  · intro row hw
    rcases assemble_cases row with h | ⟨pl, v, s, l, ph, n, w, nph,
      _, _, _, _, _, _, h7, _, hEq⟩
    · rw [h]; rfl
    · rw [hw] at h7
      simp only [parseWarningField, Except.ok.injEq] at h7
      rw [hEq]
      exact h7.symm

theorem c5_witness : (assemble c5row).notes = Json.arr [] :=
  c5_subdocument_defaults.2.1 c5row rfl
